import Mathlib

/-!
Verification of the sandbox execution and file-transfer gateway.

This file gives a shallow embedding of the gateway code (path validation,
the file-tree builder, the download extraction, the two shell executors,
and the env-file store) as executable Lean definitions, and proves or
refutes the specified properties about them.
-/

/-! ### Executable string primitives

The embeddings below need splitting, trimming and literal prefix tests on
strings.  These are defined here by structural recursion on the character
list of the string, mirroring the Python string operations the source
uses (split with a one-character separator, strip, startswith).
-/

/-- ASCII whitespace, the characters stripped by trim. -/
def wsChar (c : Char) : Bool :=
  c == ' ' || c == '\t' || c == '\n' || c == '\r'

/-- Split a character list on a separator character, keeping empty
pieces, as Python str.split with a one-character separator does. -/
def chSplit (sep : Char) : List Char → List (List Char)
  | [] => [[]]
  | c :: rest =>
      let r := chSplit sep rest
      if c == sep then [] :: r
      else
        match r with
        | [] => [[c]]
        | h :: t => (c :: h) :: t

/-- Python str.split with a one-character separator. -/
def strSplitChar (sep : Char) (s : String) : List String :=
  (chSplit sep s.data).map String.mk

/-- Literal prefix test on character lists. -/
def chStarts : List Char → List Char → Bool
  | [], _ => true
  | _ :: _, [] => false
  | p :: ps, c :: cs => p == c && chStarts ps cs

/-- Python str.startswith: the second string is a literal prefix of the
first. -/
def strStarts (s pre : String) : Bool :=
  chStarts pre.data s.data

/-- Python str.strip: remove whitespace from both ends. -/
def strTrim (s : String) : String :=
  String.mk (((s.data.dropWhile wsChar).reverse.dropWhile wsChar).reverse)

/-! ### A model of Python PurePosixPath normalization

PurePosixPath collapses repeated separators and drops single-dot segments
but keeps double-dot segments.  A leading run of exactly two slashes is a
special root that is preserved; one slash, or three or more, normalize to
a single slash root.
-/

/-- The root component of a POSIX path string, as PurePosixPath computes it. -/
def pppRoot (p : String) : String :=
  if strStarts p "//" && !(strStarts p "///") then "//"
  else if strStarts p "/" then "/"
  else ""

/-- The non-root components: split on the separator, dropping empty and
single-dot segments (double-dot segments are kept). -/
def pppParts (p : String) : List String :=
  (strSplitChar '/' p).filter (fun s => s ≠ "" ∧ s ≠ ".")

/-- The string form of PurePosixPath(p): root plus joined parts, with the
empty relative path rendered as a single dot. -/
def pppStr (p : String) : String :=
  let parts := pppParts p
  let root := pppRoot p
  if root = "" then
    (if parts.isEmpty then "." else String.intercalate "/" parts)
  else root ++ String.intercalate "/" parts

/-- The string form of PurePosixPath(p).parent: drop the last component;
a pure root (or the empty relative path) is its own parent. -/
def pppParentStr (p : String) : String :=
  let parts := pppParts p
  let root := pppRoot p
  if parts.isEmpty then (if root = "" then "." else root)
  else
    let par := parts.dropLast
    if root = "" then (if par.isEmpty then "." else String.intercalate "/" par)
    else root ++ String.intercalate "/" par

/-! ### Path validation (file_service._validate_path) -/

/-- Structured error mirroring HTTPException: status code and detail text. -/
structure HTTPError where
  status : Nat
  detail : String
deriving DecidableEq, Repr

/-- Decidable equality for result values. -/
instance {ε α : Type} [DecidableEq ε] [DecidableEq α] : DecidableEq (Except ε α)
  | .ok a, .ok b =>
      if h : a = b then .isTrue (by rw [h])
      else .isFalse (fun hh => by cases hh; exact h rfl)
  | .error a, .error b =>
      if h : a = b then .isTrue (by rw [h])
      else .isFalse (fun hh => by cases hh; exact h rfl)
  | .ok _, .error _ => .isFalse (fun hh => by cases hh)
  | .error _, .ok _ => .isFalse (fun hh => by cases hh)

/-- Root directory that users are allowed to browse. -/
def ALLOWED_ROOT : String := "/workspace"

/-- Embedding of file_service._validate_path: normalize via PurePosixPath
and require the allowed root as a literal string prefix of the result. -/
def validatePath (path : String) : Except HTTPError String :=
  let resolved := pppStr path
  if strStarts resolved ALLOWED_ROOT then .ok resolved
  else .error ⟨400, "Path must be within " ++ ALLOWED_ROOT⟩

/-- The error value produced by validatePath on rejection. -/
def pathValidationError : HTTPError :=
  ⟨400, "Path must be within " ++ ALLOWED_ROOT⟩

/-! ### Executor configuration and output truncation (container.py) -/

/-- Default working directory inside the sandbox container. -/
def SANDBOX_WORKDIR : String := "/workspace"

/-- Path of the managed environment file shared with the container. -/
def ENV_FILE_PATH : String := "/sandbox-env/.env"

/-- Maximum output size in characters. -/
def MAX_OUTPUT_LENGTH : Nat := 10000

/-- The literal text appended to a stream that was cut at the limit. -/
def truncationMarker : String := "\n... [output truncated]"

/-- Embedding of the per-stream truncation in container.py: a stream longer
than the limit is cut to the limit and the marker is appended. -/
def truncateOutput (s : String) : String :=
  if s.length > MAX_OUTPUT_LENGTH then s.take MAX_OUTPUT_LENGTH ++ truncationMarker
  else s

/-- Embedding of models.ShpblResponse: the unified response model.  These
are exactly the fields the pydantic model declares; the data field is
modelled as an optional association list. -/
structure ShpblResponse where
  success : Bool
  message : Option String := none
  data : Option (List (String × String)) := none
  stdout : Option String := none
  stderr : Option String := none
  exit_code : Option Int := none
deriving DecidableEq, Repr

/-- The field names of models.ShpblResponse, in declaration order: the keys
a serialized response can carry. -/
def shpblResponseFields : List String :=
  ["success", "message", "data", "stdout", "stderr", "exit_code"]

/-- Modelled from the spec: the ExecutionResult record of spec section 3,
which declares stdout_truncated and stderr_truncated boolean fields.  Used
only to compare the spec result shape with the code result shape. -/
def executionResultSpecFields : List String :=
  ["exit_code", "stdout", "stderr", "stdout_truncated", "stderr_truncated"]

/-- Embedding of the response construction shared by both executors in
container.py: truncate each captured stream, set success from the exit
code, and return the response (no truncation flag is recorded). -/
def mkExecResponse (exitCode : Int) (stdout stderr : String) : ShpblResponse :=
  { success := exitCode == 0
  , stdout := some (truncateOutput stdout)
  , stderr := some (truncateOutput stderr)
  , exit_code := some exitCode }

/-! ### The composite shell commands of the two executors -/

/-- Embedding of the composite command built by exec_in_container: guarded
sourcing of the env file, then cd into the workdir and run the command. -/
def execFullCommand (command workdir : String) : String :=
  "set -a; [ -f " ++ ENV_FILE_PATH ++ " ] && . " ++ ENV_FILE_PATH ++ "; set +a; cd "
    ++ workdir ++ " && " ++ command

/-- Embedding of the code-execution payload of exec_python_in_container:
run the interpreter, capture its exit code, remove the script, exit with
the captured code. -/
def pythonPayload (scriptPath : String) : String :=
  "python3 " ++ scriptPath ++ "; _exit=$?; rm -f " ++ scriptPath ++ "; exit $_exit"

/-- Embedding of the composite command built by exec_python_in_container:
note the env file is sourced with a stderr redirect but without the
existence guard used by exec_in_container. -/
def pythonFullCommand (workdir scriptPath : String) : String :=
  "set -a; . " ++ ENV_FILE_PATH ++ " 2>/dev/null; set +a; cd "
    ++ workdir ++ " && " ++ pythonPayload scriptPath

/-- Modelled from the spec: the shell composite command template of spec
section 6, claimed to be shared by both executors, in which the env file
is sourced only behind an existence guard. -/
def specCompositeTemplate (workdir payload : String) : String :=
  "set -a; [ -f " ++ ENV_FILE_PATH ++ " ] && . " ++ ENV_FILE_PATH ++ "; set +a; cd "
    ++ workdir ++ " && " ++ payload

/-! ### A small semantics for the code-execution payload

The payload is a straight-line sequence of four POSIX commands separated
by semicolons.  We give it an abstract syntax, a renderer back to the
payload string, and an interpreter over a small shell state.  The exit
status of the interpreter invocation is a parameter of the semantics.
-/

/-- The commands appearing in the code-execution payload. -/
inductive SCmd where
  | runScript (script : String)
  | captureStatus (v : String)
  | removeForce (p : String)
  | exitWithVar (v : String)
deriving DecidableEq, Repr

/-- Shell state: files present in the scratch directory, the last exit
status, and the shell variables. -/
structure ShState where
  files : List String
  lastStatus : Int
  vars : List (String × Int)
deriving DecidableEq, Repr

/-- Render one payload command back to its shell text. -/
def renderSCmd : SCmd → String
  | .runScript s => "python3 " ++ s
  | .captureStatus v => v ++ "=$?"
  | .removeForce p => "rm -f " ++ p
  | .exitWithVar v => "exit $" ++ v

/-- One step of the payload semantics: either a new state, or termination
with an exit code together with the final state.  interp is the exit
status of the interpreter invocation; rm -f never fails and removes the
named file; exit with an unset variable exits with the last status. -/
def stepSCmd (interp : Int) : SCmd → ShState → ShState ⊕ (Int × ShState)
  | .runScript _, st => .inl { st with lastStatus := interp }
  | .captureStatus v, st => .inl { st with vars := (v, st.lastStatus) :: st.vars }
  | .removeForce p, st => .inl { st with files := st.files.filter (fun f => f ≠ p) }
  | .exitWithVar v, st =>
      .inr ((match st.vars.lookup v with | some n => n | none => st.lastStatus), st)

/-- Run a command sequence; falling off the end exits with the last
status. -/
def runSCmds (interp : Int) : List SCmd → ShState → Int × ShState
  | [], st => (st.lastStatus, st)
  | c :: cs, st =>
      match stepSCmd interp c st with
      | .inl st2 => runSCmds interp cs st2
      | .inr r => r

/-- The abstract syntax of the code-execution payload built by
exec_python_in_container. -/
def pythonPayloadCmds (script : String) : List SCmd :=
  [.runScript script, .captureStatus "_exit", .removeForce script, .exitWithVar "_exit"]

/-! ### Archive extraction for downloads (file_service.download_file) -/

/-- The kind of a tar member: regular file, directory, or a special member
for which tarfile.extractfile yields no file object. -/
inductive TarKind where
  | file
  | dir
  | other
deriving DecidableEq, Repr

/-- A member of the tar stream returned by the container engine. -/
structure TarMember where
  kind : TarKind
  content : List UInt8
deriving DecidableEq, Repr

/-- Model of tarfile.extractfile: a file object (its bytes) for a regular
file member, nothing for directories and special members. -/
def extractFileContent (m : TarMember) : Option (List UInt8) :=
  match m.kind with
  | .file => some m.content
  | _ => none

/-- Embedding of the extraction logic of download_file: an empty archive
is NotFound, a directory first entry is InvalidRequest, otherwise the
first entry is extracted and its raw bytes returned (with a defensive 500
when no file object can be obtained). -/
def downloadExtract (members : List TarMember) : Except HTTPError (List UInt8) :=
  match members with
  | [] => .error ⟨404, "Archive is empty"⟩
  | m :: _ =>
      if m.kind = TarKind.dir then
        .error ⟨400, "Path is a directory. Use /files/tree to browse."⟩
      else
        match extractFileContent m with
        | none => .error ⟨500, "Could not extract file from archive"⟩
        | some b => .ok b

/-! ### The environment-file store (env_service.py) -/

/-- Insert with Python dict semantics over an association list: an
existing key keeps its position and gets the new value, a new key is
appended at the end. -/
def dictInsert {β : Type} (k : String) (v : β) : List (String × β) → List (String × β)
  | [] => [(k, v)]
  | (k2, v2) :: rest => if k2 = k then (k, v) :: rest else (k2, v2) :: dictInsert k v rest

/-- Lookup in an association list by key. -/
def dictLookup {β : Type} (k : String) : List (String × β) → Option β
  | [] => none
  | (k2, v) :: rest => if k2 = k then some v else dictLookup k rest

/-- Split a string into lines; the persisted env file is modelled as
LF-separated text. -/
def splitLines (s : String) : List String := strSplitChar '\n' s

/-- Embedding of the per-line step of env_service._read_env: strip the
line; skip blank lines, comment lines, and lines without an equals sign;
otherwise split on the first equals sign and store the stripped key and
value. -/
def readEnvLine (env : List (String × String)) (rawLine : String) : List (String × String) :=
  let line := strTrim rawLine
  if line = "" then env
  else if strStarts line "#" then env
  else
    match strSplitChar '=' line with
    | [] => env
    | [_] => env
    | k :: rest => dictInsert (strTrim k) (strTrim (String.intercalate "=" rest)) env

/-- Embedding of env_service._read_env: an absent file yields the empty
mapping; otherwise every line is processed in order. -/
def readEnv : Option String → List (String × String)
  | none => []
  | some content => (splitLines content).foldl readEnvLine []

/-- The sort order Python sorted uses on the items of the env mapping:
lexicographic on the key-value pair. -/
def envPairLE (a b : String × String) : Bool :=
  decide (a.1 < b.1 ∨ (a.1 = b.1 ∧ (a.2 < b.2 ∨ a.2 = b.2)))

/-- Embedding of the serialization in env_service._write_env: one
KEY=VALUE line per entry in sorted order, joined by newlines, with a
trailing newline. -/
def serializeEnv (env : List (String × String)) : String :=
  String.intercalate "\n" ((env.mergeSort envPairLE).map (fun kv => kv.1 ++ "=" ++ kv.2)) ++ "\n"

/-- The state of the persisted env file: whether the parent directory
exists and the file content (none when the file does not exist). -/
structure EnvFileState where
  parentDirExists : Bool
  content : Option String
deriving DecidableEq, Repr

/-- Embedding of env_service._write_env: create parent directories, then
replace the whole file content with the serialized mapping. -/
def writeEnv (env : List (String × String)) (_fs : EnvFileState) : EnvFileState :=
  { parentDirExists := true, content := some (serializeEnv env) }

/-! ### The file-tree builder (file_service._parse_tree)

The builder gets a flat listing, one line per entry in the form
"<type_char> <absolute_path>", and produces a nested tree.  Pass 1 builds
a path-keyed node table with Python dict semantics; pass 2 walks the
table in insertion order and appends every node whose parent path is a
table key (other than itself) to the children list stored on that parent
node.  Appending to the children of a file node is an attribute error in
the source (children of file nodes is None), modelled as an error result.
-/

/-- The per-path information recorded by pass 1: display name and the
entry type string, either directory or file. -/
structure NodeInfo where
  name : String
  ntype : String
deriving DecidableEq, Repr

/-- A node of the produced tree: name, absolute path, type string, and an
ordered child sequence that is present exactly for directories. -/
inductive FNode where
  | mk (name : String) (path : String) (ntype : String) (children : Option (List FNode))

/-- The path stored in a tree node. -/
def fnodePath : FNode → String
  | .mk _ p _ _ => p

/-- Python line.split with separator one space and maxsplit one: the text
before the first space and everything after it; a line with no space is
skipped by the caller. -/
def splitTypePath (line : String) : Option (String × String) :=
  match strSplitChar ' ' line with
  | [] => none
  | [_] => none
  | t :: rest => some (t, String.intercalate " " rest)

/-- os.path.basename: the text after the last separator. -/
def posixBasename (p : String) : String :=
  ((strSplitChar '/' p).getLastD "")

/-- One line of pass 1: malformed lines are skipped, the display name
falls back to the whole path when the basename is empty, and the node is
stored under its path with dict insertion semantics. -/
def treePass1Step (acc : List (String × NodeInfo)) (line : String) : List (String × NodeInfo) :=
  match splitTypePath line with
  | none => acc
  | some (t, p) =>
      let ntype := if t = "d" then "directory" else "file"
      let base := posixBasename p
      let nm := if base = "" then p else base
      dictInsert p ⟨nm, ntype⟩ acc

/-- Pass 1 of the builder: fold the lines into a path-keyed node table. -/
def treePass1 (lines : List String) : List (String × NodeInfo) :=
  lines.foldl treePass1Step []

/-- The paths parsed from the listing lines, in listing order, duplicates
included. -/
def parsedPaths (lines : List String) : List String :=
  lines.filterMap (fun line => (splitTypePath line).map Prod.snd)

/-- The child paths that pass 2 attaches to a given table key, in table
order: the keys whose parent path is that key, itself excluded. -/
def childPaths (entries : List (String × NodeInfo)) (p : String) : List String :=
  (entries.map Prod.fst).filter (fun c => pppParentStr c = p ∧ p ≠ c)

/-- Pass 2 succeeds only when no node is appended to the children of a
file node: every key whose parent path is a distinct table key needs that
parent to be a directory node. -/
def treePass2Ok (entries : List (String × NodeInfo)) : Bool :=
  entries.all (fun e =>
    match dictLookup (pppParentStr e.1) entries with
    | none => true
    | some info => decide (pppParentStr e.1 = e.1 ∨ info.ntype = "directory"))

/-- Materialize the tree node for a table key: directories carry the
recursively materialized children, files carry no child sequence.  The
fuel argument bounds the recursion; the parent relation is acyclic and
its chains visit distinct table keys, so fuel equal to the table size is
never exhausted. -/
def buildNode (entries : List (String × NodeInfo)) : Nat → String → NodeInfo → FNode
  | 0, p, info =>
      FNode.mk info.name p info.ntype (if info.ntype = "directory" then some [] else none)
  | fuel + 1, p, info =>
      let kids := (childPaths entries p).filterMap
        (fun c => (dictLookup c entries).map (fun ci => buildNode entries fuel c ci))
      FNode.mk info.name p info.ntype (if info.ntype = "directory" then some kids else none)

/-- Errors of the tree builder: the attribute error raised when pass 2
appends to the children of a file node. -/
inductive TreeError where
  | attributeError
deriving DecidableEq, Repr

/-- Embedding of file_service._parse_tree over the listing lines: pass 1,
pass 2, then the child sequence of the root key if present, else every
node of the table. -/
def parseTree (lines : List String) (root : String) : Except TreeError (List FNode) :=
  if treePass2Ok (treePass1 lines) then
    if root ∈ (treePass1 lines).map Prod.fst then
      .ok ((childPaths (treePass1 lines) root).filterMap
        (fun c => (dictLookup c (treePass1 lines)).map
          (fun ci => buildNode (treePass1 lines) (treePass1 lines).length c ci)))
    else
      .ok ((treePass1 lines).map
        (fun e => buildNode (treePass1 lines) (treePass1 lines).length e.1 e.2))
  else .error .attributeError

/-- The top-level paths of a successful tree build. -/
def treeTopPaths (r : Except TreeError (List FNode)) : Option (List String) :=
  match r with
  | .ok ns => some (ns.map fnodePath)
  | .error _ => none

/-- Modelled from the spec: the top-level keys of the table in the words
of the claim for the fallback case, namely the nodes with no parent in
the listing. -/
def topLevelKeys (entries : List (String × NodeInfo)) : List String :=
  (entries.map Prod.fst).filter
    (fun k => ¬ (pppParentStr k ∈ entries.map Prod.fst ∧ pppParentStr k ≠ k))

/-! ### Concrete inputs used by witnesses and counterexamples -/

/-- A captured stream of 10001 characters, one over the truncation limit. -/
def longOut : String := String.mk (List.replicate 10001 'a')

/-- A three-line listing: a directory with two files. -/
def listingBC : List String := ["d /a", "f /a/b", "f /a/c"]

/-- The same listing with the two file lines swapped. -/
def listingCB : List String := ["d /a", "f /a/c", "f /a/b"]

/-! ## Helper lemmas -/

/-- Materializing a node keeps its path, whatever the fuel. -/
theorem fnodePath_buildNode (entries : List (String × NodeInfo)) (fuel : Nat)
    (p : String) (i : NodeInfo) : fnodePath (buildNode entries fuel p i) = p := by
  cases fuel <;> rfl

/-- Key membership after a dict insertion. -/
theorem mem_keys_dictInsert {β : Type} (k x : String) (v : β) (d : List (String × β)) :
    x ∈ (dictInsert k v d).map Prod.fst ↔ x = k ∨ x ∈ d.map Prod.fst := by
  induction d with
  | nil => simp [dictInsert]
  | cons hd tl ih =>
      obtain ⟨k2, v2⟩ := hd
      by_cases h : k2 = k
      · subst h; simp [dictInsert]
      · simp [dictInsert, h, ih]
        tauto

/-- A key of the table has a value. -/
theorem dictLookup_isSome {β : Type} (k : String) (d : List (String × β))
    (h : k ∈ d.map Prod.fst) : ∃ v, dictLookup k d = some v := by
  induction d with
  | nil => simp at h
  | cons hd tl ih =>
      obtain ⟨k2, v2⟩ := hd
      by_cases hk : k2 = k
      · exact ⟨v2, by simp [dictLookup, hk]⟩
      · have h2 : k = k2 ∨ k ∈ tl.map Prod.fst := by
          rw [List.map_cons, List.mem_cons] at h
          exact h
        have h3 : k ∈ tl.map Prod.fst := by
          rcases h2 with h1 | h1
          · exact absurd h1.symm hk
          · exact h1
        obtain ⟨v, hv⟩ := ih h3
        exact ⟨v, by simp [dictLookup, hk, hv]⟩

/-- Key membership through the pass 1 fold. -/
theorem mem_keys_foldl_treePass1 (lines : List String) :
    ∀ (acc : List (String × NodeInfo)) (x : String),
      x ∈ ((lines.foldl treePass1Step acc).map Prod.fst) ↔
        x ∈ acc.map Prod.fst ∨ x ∈ parsedPaths lines := by
  induction lines with
  | nil => intro acc x; simp [parsedPaths]
  | cons l ls ih =>
      intro acc x
      rw [List.foldl_cons, ih]
      cases h : splitTypePath l with
      | none =>
          have hstep : treePass1Step acc l = acc := by
            simp only [treePass1Step, h]
          have hpp : parsedPaths (l :: ls) = parsedPaths ls := by
            simp [parsedPaths, List.filterMap_cons, h]
          rw [hstep, hpp]
      | some tp =>
          obtain ⟨t, p⟩ := tp
          have hstep : x ∈ (treePass1Step acc l).map Prod.fst ↔
              x = p ∨ x ∈ acc.map Prod.fst := by
            simp only [treePass1Step, h]
            exact mem_keys_dictInsert _ _ _ _
          have hpp : parsedPaths (l :: ls) = p :: parsedPaths ls := by
            simp [parsedPaths, List.filterMap_cons, h]
          rw [hstep, hpp, List.mem_cons]
          tauto

/-- The keys of the pass 1 table are the parsed paths of the listing. -/
theorem mem_keys_treePass1 (lines : List String) (x : String) :
    x ∈ (treePass1 lines).map Prod.fst ↔ x ∈ parsedPaths lines := by
  rw [treePass1, mem_keys_foldl_treePass1]
  simp

/-- Materializing a list of keys keeps exactly those paths. -/
theorem map_fnodePath_filterMap (entries : List (String × NodeInfo)) (fuel : Nat)
    (l : List String) (h : ∀ c ∈ l, c ∈ entries.map Prod.fst) :
    ((l.filterMap
        (fun c => (dictLookup c entries).map (fun ci => buildNode entries fuel c ci))).map
      fnodePath) = l := by
  induction l with
  | nil => simp
  | cons c cs ih =>
      obtain ⟨v, hv⟩ := dictLookup_isSome c entries (h c (by simp))
      simp [List.filterMap_cons, hv, fnodePath_buildNode,
        ih (fun x hx => h x (by simp [hx]))]

/-! ## Claim theorems -/

/-- C1: evaluation of the path validator at the traversal path from the
claim: PurePosixPath keeps the double-dot segment, the normalized string
still starts with the allowed root, and validation succeeds instead of
rejecting — the code contradicts the stated no-traversal property. -/
theorem traversal_path_accepted :
    pppStr "/workspace/../etc/passwd" = "/workspace/../etc/passwd"
    ∧ validatePath "/workspace/../etc/passwd" = .ok "/workspace/../etc/passwd" := by
  exact ⟨by decide, by decide⟩

/-- C10: the validator rejects exactly when the string form of the
normalized path does not literally start with the allowed root, and
consequently sibling directories of the root such as /workspace-evil and
/workspacefoo are accepted. -/
theorem validator_is_literal_string_check :
    (∀ p : String,
        validatePath p = .error pathValidationError ↔
          strStarts (pppStr p) ALLOWED_ROOT = false)
    ∧ validatePath "/workspace-evil/file" = .ok "/workspace-evil/file"
    ∧ validatePath "/workspacefoo/x" = .ok "/workspacefoo/x" := by
  refine ⟨fun p => ?_, by decide, by decide⟩
  unfold validatePath pathValidationError
  by_cases h : strStarts (pppStr p) ALLOWED_ROOT <;> simp [h]

/-- C7 counterexample: a nonempty archive whose first entry is a special
member, not a directory — the code answers a 500 internal error instead
of returning the raw bytes of the entry, contradicting the otherwise
branch of the claim. -/
theorem download_extract_special_member_cex :
    (⟨TarKind.other, [104]⟩ : TarMember).kind ≠ TarKind.dir
    ∧ downloadExtract [⟨TarKind.other, [104]⟩]
        = .error ⟨500, "Could not extract file from archive"⟩
    ∧ downloadExtract [⟨TarKind.other, [104]⟩]
        ≠ .ok (⟨TarKind.other, [104]⟩ : TarMember).content := by
  decide

/-- C7 amended: the download extraction fails NotFound on an empty
archive, fails InvalidRequest when the first entry is a directory,
returns the raw bytes of the first entry when it is a regular file, and
fails with an internal error when the first entry is a special member
yielding no file object. -/
theorem download_extract_cases :
    downloadExtract [] = .error ⟨404, "Archive is empty"⟩
    ∧ (∀ (m : TarMember) (ms : List TarMember), m.kind = TarKind.dir →
        downloadExtract (m :: ms) =
          .error ⟨400, "Path is a directory. Use /files/tree to browse."⟩)
    ∧ (∀ (m : TarMember) (ms : List TarMember), m.kind = TarKind.file →
        downloadExtract (m :: ms) = .ok m.content)
    ∧ (∀ (m : TarMember) (ms : List TarMember), m.kind = TarKind.other →
        downloadExtract (m :: ms) =
          .error ⟨500, "Could not extract file from archive"⟩) := by
  refine ⟨rfl, ?_, ?_, ?_⟩
  · intro m ms h
    simp [downloadExtract, h]
  · intro m ms h
    simp [downloadExtract, extractFileContent, h]
  · intro m ms h
    simp [downloadExtract, extractFileContent, h]

/-- Witness for C7 at a one-entry directory archive, a one-entry file
archive, and a one-entry special-member archive. -/
theorem download_extract_cases_witness :
    ((⟨TarKind.dir, []⟩ : TarMember).kind = TarKind.dir
      ∧ downloadExtract [⟨TarKind.dir, []⟩] =
          .error ⟨400, "Path is a directory. Use /files/tree to browse."⟩)
    ∧ ((⟨TarKind.file, [104]⟩ : TarMember).kind = TarKind.file
      ∧ downloadExtract [⟨TarKind.file, [104]⟩] = .ok [104])
    ∧ ((⟨TarKind.other, [104]⟩ : TarMember).kind = TarKind.other
      ∧ downloadExtract [⟨TarKind.other, [104]⟩] =
          .error ⟨500, "Could not extract file from archive"⟩) :=
  ⟨⟨rfl, download_extract_cases.2.1 _ _ rfl⟩,
   ⟨rfl, download_extract_cases.2.2.1 _ _ rfl⟩,
   ⟨rfl, download_extract_cases.2.2.2 _ _ rfl⟩⟩

/-- C3: the command executor builds exactly the guarded composite of the
specified template, but the code executor does not: its composite sources
the env file behind a stderr redirect with no existence guard, so it
differs from the guarded template. -/
theorem python_composite_lacks_guard :
    (∀ c w : String, execFullCommand c w = specCompositeTemplate w c)
    ∧ pythonFullCommand "/workspace" "/tmp/_llm_run_0123456789ab.py"
        ≠ specCompositeTemplate "/workspace"
            (pythonPayload "/tmp/_llm_run_0123456789ab.py") := by
  refine ⟨fun c w => rfl, ?_⟩
  decide

/-- C4: the code-execution payload renders to the exact shell text built
by the code, and running it under the payload semantics exits with the
exit code of the interpreter invocation while the script file is removed
on every exit path. -/
theorem python_payload_cleanup_and_exit :
    String.intercalate "; "
        ((pythonPayloadCmds "/tmp/_llm_run_0123456789ab.py").map renderSCmd)
      = pythonPayload "/tmp/_llm_run_0123456789ab.py"
    ∧ ∀ (interp : Int) (st : ShState) (script : String),
        ∃ st2 : ShState,
          runSCmds interp (pythonPayloadCmds script) st = (interp, st2)
          ∧ script ∉ st2.files := by
  constructor
  · decide
  · intro interp st script
    refine ⟨_, rfl, ?_⟩
    simp [List.mem_filter]

/-- The over-limit stream used by the truncation witness has 10001
characters. -/
theorem longOut_length : longOut.length = 10001 := by
  have h : longOut.length = (List.replicate 10001 'a').length := rfl
  rw [h, List.length_replicate]

/-- C2 counterexample: the truncated boolean flags promised by the claim
exist in the spec result model but not among the fields of the response
model the code returns. -/
theorem truncation_flag_missing_cex :
    ("stdout_truncated" ∈ executionResultSpecFields
      ∧ "stdout_truncated" ∉ shpblResponseFields)
    ∧ ("stderr_truncated" ∈ executionResultSpecFields
      ∧ "stderr_truncated" ∉ shpblResponseFields) := by
  decide

/-- C2 amended: for every execution and for each captured stream
independently, a stream over the limit is returned as exactly its first
10000 characters followed by the literal marker, a stream within the
limit is returned verbatim, and the response carries no truncated boolean
field. -/
theorem truncation_amended (ec : Int) (out err : String) :
    ((MAX_OUTPUT_LENGTH < out.length →
        (mkExecResponse ec out err).stdout
          = some (out.take MAX_OUTPUT_LENGTH ++ truncationMarker))
      ∧ (out.length ≤ MAX_OUTPUT_LENGTH →
        (mkExecResponse ec out err).stdout = some out))
    ∧ ((MAX_OUTPUT_LENGTH < err.length →
        (mkExecResponse ec out err).stderr
          = some (err.take MAX_OUTPUT_LENGTH ++ truncationMarker))
      ∧ (err.length ≤ MAX_OUTPUT_LENGTH →
        (mkExecResponse ec out err).stderr = some err))
    ∧ "stdout_truncated" ∉ shpblResponseFields
    ∧ "stderr_truncated" ∉ shpblResponseFields := by
  refine ⟨⟨?_, ?_⟩, ⟨?_, ?_⟩, by decide, by decide⟩
  · intro h
    simp [mkExecResponse, truncateOutput, h]
  · intro h
    simp [mkExecResponse, truncateOutput, Nat.not_lt.mpr h]
  · intro h
    simp [mkExecResponse, truncateOutput, h]
  · intro h
    simp [mkExecResponse, truncateOutput, Nat.not_lt.mpr h]

/-- Witness for C2: both regimes of both streams, at a 10001-character
stream paired with a one-character stream, in both positions. -/
theorem truncation_amended_witness :
    MAX_OUTPUT_LENGTH < longOut.length
    ∧ ("e" : String).length ≤ MAX_OUTPUT_LENGTH
    ∧ (mkExecResponse 0 longOut "e").stdout
        = some (longOut.take MAX_OUTPUT_LENGTH ++ truncationMarker)
    ∧ (mkExecResponse 0 longOut "e").stderr = some "e"
    ∧ (mkExecResponse 0 "e" longOut).stdout = some "e"
    ∧ (mkExecResponse 0 "e" longOut).stderr
        = some (longOut.take MAX_OUTPUT_LENGTH ++ truncationMarker) := by
  have h1 : MAX_OUTPUT_LENGTH < longOut.length := by
    rw [longOut_length]; decide
  have h2 : ("e" : String).length ≤ MAX_OUTPUT_LENGTH := by decide
  exact ⟨h1, h2,
    (truncation_amended 0 longOut "e").1.1 h1,
    (truncation_amended 0 longOut "e").2.1.2 h2,
    (truncation_amended 0 "e" longOut).1.2 h2,
    (truncation_amended 0 "e" longOut).2.1.1 h1⟩

/-- C5 counterexample: with the root absent from the listing, the builder
returns every node of the table, here both the directory and its child
file, not only the top-level nodes. -/
theorem tree_fallback_all_nodes_cex :
    treeTopPaths (parseTree ["d /a", "f /a/b"] "/r") = some ["/a", "/a/b"]
    ∧ topLevelKeys (treePass1 ["d /a", "f /a/b"]) = ["/a"]
    ∧ treeTopPaths (parseTree ["d /a", "f /a/b"] "/r")
        ≠ some (topLevelKeys (treePass1 ["d /a", "f /a/b"])) := by
  refine ⟨by decide, by decide, by decide⟩

/-- C5 amended: when pass 2 does not fail, a root present in the table
yields exactly the child paths recorded for the root, and an absent root
yields one node per table entry, namely every node found. -/
theorem tree_root_children_or_all_nodes (lines : List String) (root : String)
    (h : treePass2Ok (treePass1 lines) = true) :
    (root ∈ (treePass1 lines).map Prod.fst →
      treeTopPaths (parseTree lines root) = some (childPaths (treePass1 lines) root))
    ∧ (root ∉ (treePass1 lines).map Prod.fst →
      treeTopPaths (parseTree lines root) = some ((treePass1 lines).map Prod.fst)) := by
  constructor
  · intro hm
    simp only [parseTree]
    rw [if_pos h, if_pos hm]
    simp only [treeTopPaths]
    rw [map_fnodePath_filterMap]
    intro c hc
    exact (List.mem_filter.mp hc).1
  · intro hm
    simp only [parseTree]
    rw [if_pos h, if_neg hm]
    simp only [treeTopPaths]
    simp [List.map_map, Function.comp, fnodePath_buildNode]

/-- Witness for C5 at a two-line listing rooted at its directory. -/
theorem tree_root_children_or_all_nodes_witness :
    treePass2Ok (treePass1 ["d /a", "f /a/b"]) = true
    ∧ (("/a" ∈ (treePass1 ["d /a", "f /a/b"]).map Prod.fst →
        treeTopPaths (parseTree ["d /a", "f /a/b"] "/a")
          = some (childPaths (treePass1 ["d /a", "f /a/b"]) "/a"))
      ∧ ("/a" ∉ (treePass1 ["d /a", "f /a/b"]).map Prod.fst →
        treeTopPaths (parseTree ["d /a", "f /a/b"] "/a")
          = some ((treePass1 ["d /a", "f /a/b"]).map Prod.fst))) :=
  ⟨by decide, tree_root_children_or_all_nodes _ _ (by decide)⟩

/-- C6 counterexample: swapping two listing lines permutes the input but
changes the order of the children of the directory, so the built trees
differ. -/
theorem tree_order_dependence_cex :
    listingBC.Perm listingCB
    ∧ treeTopPaths (parseTree listingBC "/a") = some ["/a/b", "/a/c"]
    ∧ treeTopPaths (parseTree listingCB "/a") = some ["/a/c", "/a/b"]
    ∧ parseTree listingBC "/a" ≠ parseTree listingCB "/a" := by
  refine ⟨by decide, by decide, by decide, fun hq => ?_⟩
  have h2 := congrArg treeTopPaths hq
  rw [show treeTopPaths (parseTree listingBC "/a") = some ["/a/b", "/a/c"] by decide,
    show treeTopPaths (parseTree listingCB "/a") = some ["/a/c", "/a/b"] by decide] at h2
  exact absurd h2 (by decide)

/-- C6 amended: permuting the listing lines keeps the set of node paths
and the parent-child membership relation of the built table unchanged;
only the order within sibling sequences can differ. -/
theorem tree_perm_same_nodes_and_edges (l1 l2 : List String) (hp : l1.Perm l2) :
    (∀ k, k ∈ (treePass1 l1).map Prod.fst ↔ k ∈ (treePass1 l2).map Prod.fst)
    ∧ (∀ p c, c ∈ childPaths (treePass1 l1) p ↔ c ∈ childPaths (treePass1 l2) p) := by
  have hkeys : ∀ k, k ∈ (treePass1 l1).map Prod.fst ↔ k ∈ (treePass1 l2).map Prod.fst := by
    intro k
    rw [mem_keys_treePass1, mem_keys_treePass1]
    unfold parsedPaths
    exact (hp.filterMap _).mem_iff
  refine ⟨hkeys, fun p c => ?_⟩
  simp only [childPaths, List.mem_filter]
  exact and_congr_left' (hkeys c)

/-- Witness for C6 at the swapped three-line listing. -/
theorem tree_perm_same_nodes_and_edges_witness :
    listingBC.Perm listingCB
    ∧ ((∀ k, k ∈ (treePass1 listingBC).map Prod.fst ↔
          k ∈ (treePass1 listingCB).map Prod.fst)
      ∧ (∀ p c, c ∈ childPaths (treePass1 listingBC) p ↔
          c ∈ childPaths (treePass1 listingCB) p)) :=
  ⟨by decide, tree_perm_same_nodes_and_edges _ _ (by decide)⟩

/-- C8: reading an absent env file yields the empty mapping; blank lines
and comment lines leave the mapping unchanged; a line is split only on
its first equals sign, a value keeping any further equals signs; the
whole pipeline on a small file. -/
theorem read_env_parse_rules :
    readEnv none = []
    ∧ (∀ (env : List (String × String)) (line : String),
        strTrim line = "" → readEnvLine env line = env)
    ∧ (∀ (env : List (String × String)) (line : String),
        strStarts (strTrim line) "#" = true → readEnvLine env line = env)
    ∧ (∀ env : List (String × String), readEnvLine env "A=b=c" = dictInsert "A" "b=c" env)
    ∧ readEnv (some "# note\n\nA=b=c\nX=1") = [("A", "b=c"), ("X", "1")] := by
  refine ⟨rfl, ?_, ?_, fun env => rfl, by decide⟩
  · intro env line h
    simp [readEnvLine, h]
  · intro env line h
    have h0 : ¬ (strTrim line = "") := by
      intro h1
      rw [h1] at h
      exact absurd h (by decide)
    simp [readEnvLine, h0, h]

/-- Witness for C8 at a whitespace line and a comment line. -/
theorem read_env_parse_rules_witness :
    strTrim "  " = ""
    ∧ readEnvLine [("K", "v")] "  " = [("K", "v")]
    ∧ strStarts (strTrim " # note") "#" = true
    ∧ readEnvLine [("K", "v")] " # note" = [("K", "v")] :=
  ⟨by decide, read_env_parse_rules.2.1 _ _ (by decide), by decide,
    read_env_parse_rules.2.2.1 _ _ (by decide)⟩

/-- The env sort order is transitive. -/
theorem envPairLE_trans (a b c : String × String)
    (hab : envPairLE a b = true) (hbc : envPairLE b c = true) : envPairLE a c = true := by
  simp only [envPairLE, decide_eq_true_eq] at *
  rcases hab with h1 | ⟨h1, h2⟩ <;> rcases hbc with h3 | ⟨h3, h4⟩
  · exact Or.inl (lt_trans h1 h3)
  · exact Or.inl (h3 ▸ h1)
  · exact Or.inl (h1 ▸ h3)
  · refine Or.inr ⟨h1.trans h3, ?_⟩
    rcases h2 with h2 | h2 <;> rcases h4 with h4 | h4
    · exact Or.inl (lt_trans h2 h4)
    · exact Or.inl (h4 ▸ h2)
    · exact Or.inl (h2 ▸ h4)
    · exact Or.inr (h2.trans h4)

/-- The env sort order is total. -/
theorem envPairLE_total (a b : String × String) :
    (envPairLE a b || envPairLE b a) = true := by
  simp only [envPairLE, Bool.or_eq_true, decide_eq_true_eq]
  rcases lt_trichotomy a.1 b.1 with h | h | h
  · exact Or.inl (Or.inl h)
  · rcases lt_trichotomy a.2 b.2 with h2 | h2 | h2
    · exact Or.inl (Or.inr ⟨h, Or.inl h2⟩)
    · exact Or.inl (Or.inr ⟨h, Or.inr h2⟩)
    · exact Or.inr (Or.inr ⟨h.symm, Or.inl h2⟩)
  · exact Or.inr (Or.inl h)

/-- C9: writing replaces the whole file content with the serialized
mapping independently of the previous state, ensures the parent
directory, and the serialization is the sorted rendering of the whole
mapping, one line per entry, ending in a newline. -/
theorem write_env_full_snapshot (env : List (String × String)) (fs fs2 : EnvFileState) :
    (writeEnv env fs).content = some (serializeEnv env)
    ∧ (writeEnv env fs).parentDirExists = true
    ∧ writeEnv env fs = writeEnv env fs2
    ∧ (∃ body, serializeEnv env = body ++ "\n")
    ∧ (env.mergeSort envPairLE).Perm env
    ∧ (env.mergeSort envPairLE).Pairwise (fun a b => envPairLE a b = true)
    ∧ ((env.mergeSort envPairLE).map (fun kv => kv.1 ++ "=" ++ kv.2)).length = env.length := by
  refine ⟨rfl, rfl, rfl, ⟨_, rfl⟩, List.mergeSort_perm env _, ?_, ?_⟩
  · exact List.sorted_mergeSort envPairLE_trans envPairLE_total env
  · simp
